import Mathlib

/-!
Verification of the wave-api backend's core logic against its specification.

The Lean definitions below are a shallow embedding of the Python sources:
  * `sentence_rearranging.py` / `reading_speed.py` / `dyslexia_myths.py`:
    the cursor-based "fetch next row, wrap to start" pagination.  The SQL
    queries are embedded as pure functions over an explicit database state
    (tables as lists of rows, cursor tables as association lists keyed by
    the category key).  `ORDER BY id ASC LIMIT 1` becomes "row with minimal
    id", `LIMIT k` on an ordered select becomes `take k` of the id-sorted
    list, and the `INSERT ... ON CONFLICT DO UPDATE` cursor upsert becomes
    an association-list upsert.  The per-key advisory lock serializes
    concurrent calls in the real system; the embedding is the sequential
    semantics it protects.
  * `canvas_detector.py`: the letter-match scorer (lines 146-307), the
    request validation and base64 validation (lines 93-121), and the
    mapping of OCR-provider failures to HTTP 502 (lines 136-144).  The
    network call itself (and the pixel-level preprocessing) is abstracted
    as an `OcrOutcome` oracle: either a transport error, a provider error
    payload, or the flat list of detected symbols `(character, confidence)`
    that the extraction loop reads off the response.  Confidences are
    rationals; Python's `round(x, 3)` (banker's rounding) is `pyRound3`.
  * `chatbot.py` / `main.py`: the `/parent_chat` handler and the positional
    arity of `get_parent_answer`, embedded via a small model of Python
    positional-call semantics (a call with more positional arguments than
    parameters raises `TypeError`).
-/

/-! ## Cursor tables (association lists keyed by the category key) -/

/-- `SELECT last_id FROM cursors WHERE key = k` on a cursor table with `key`
as primary key: the first (hence, under the key constraint, only) match. -/
def lookupCursor {κ : Type} [DecidableEq κ] : List (κ × Nat) → κ → Option Nat
  | [], _ => none
  | (k', v) :: rest, k => if k' = k then some v else lookupCursor rest k

/-- `INSERT INTO cursors VALUES (k, v) ON CONFLICT (key) DO UPDATE SET last_id
= EXCLUDED.last_id`: update the row for `k` if present, else append it. -/
def upsertCursor {κ : Type} [DecidableEq κ] : List (κ × Nat) → κ → Nat → List (κ × Nat)
  | [], k, v => [(k, v)]
  | (k', v') :: rest, k, v =>
      if k' = k then (k, v) :: rest else (k', v') :: upsertCursor rest k v

/-- `ORDER BY id ASC LIMIT 1` over a set of rows: a row whose key `f` is
minimal (ids are primary keys, so the minimum is unique whenever it is used). -/
def minByKey {α : Type} (f : α → Nat) : List α → Option α
  | [] => none
  | x :: xs => some (xs.foldl (fun b r => if f r < f b then r else b) x)

/-! ## sentence_rearranging.py -/

/-- A row of the `sentence_jumbling` table. -/
structure SentenceRow where
  sentence_id : Nat
  original_sentence : String
  jumbled_sentence : String
  difficulty_level : String
  deriving DecidableEq

/-- Database state touched by `fetch_next_sentence_row`: the content table
and the `sentence_cursors` table (primary key `difficulty_level`). -/
structure SentenceDB where
  sentence_jumbling : List SentenceRow
  sentence_cursors : List (String × Nat)
  deriving DecidableEq

/-- `fetch_next_sentence_row(level)` from `sentence_rearranging.py`:
select the minimal-id row of the level with id greater than
`COALESCE(cursor, 0)`; if none, wrap to the minimal-id row of the level;
if the level has no rows, roll back and return `None`; otherwise upsert the
cursor to the id served and commit.  Returns the row and the new state. -/
def fetch_next_sentence_row (level : String) (db : SentenceDB) :
    Option SentenceRow × SentenceDB :=
  let cur := lookupCursor db.sentence_cursors level
  let lvlRows := db.sentence_jumbling.filter (fun r => r.difficulty_level = level)
  let nxt := minByKey (fun r => r.sentence_id)
    (lvlRows.filter (fun r => cur.getD 0 < r.sentence_id))
  let row := match nxt with
    | some r => some r
    | none => minByKey (fun r => r.sentence_id) lvlRows
  match row with
  | none => (none, db)
  | some r =>
      (some r, { db with sentence_cursors := upsertCursor db.sentence_cursors level r.sentence_id })

/-- Serve `n` rows in a row, recording the ids served (a call that serves
no row contributes nothing). -/
def serveIds (level : String) (db : SentenceDB) : Nat → List Nat
  | 0 => []
  | n + 1 =>
      match fetch_next_sentence_row level db with
      | (none, db') => serveIds level db' n
      | (some r, db') => r.sentence_id :: serveIds level db' n

/-! ## reading_speed.py -/

/-- A row of the `reading_speed` table. -/
structure ReadingRow where
  id : Nat
  text : String
  level : String
  word_count : Nat
  deriving DecidableEq

/-- Database state touched by `fetch_next_reading_row`: the content table
and the `reading_speed_cursors` table (primary key `level`). -/
structure ReadingDB where
  reading_speed : List ReadingRow
  reading_speed_cursors : List (String × Nat)
  deriving DecidableEq

/-- `fetch_next_reading_row(level)` from `reading_speed.py`; same
next-then-wrap shape as `fetch_next_sentence_row`. -/
def fetch_next_reading_row (level : String) (db : ReadingDB) :
    Option ReadingRow × ReadingDB :=
  let cur := lookupCursor db.reading_speed_cursors level
  let lvlRows := db.reading_speed.filter (fun r => r.level = level)
  let nxt := minByKey (fun r => r.id)
    (lvlRows.filter (fun r => cur.getD 0 < r.id))
  let row := match nxt with
    | some r => some r
    | none => minByKey (fun r => r.id) lvlRows
  match row with
  | none => (none, db)
  | some r =>
      (some r, { db with reading_speed_cursors := upsertCursor db.reading_speed_cursors level r.id })

/-! ## dyslexia_myths.py -/

/-- A row of the `dyslexia_myths` table. -/
structure MythRow where
  id : Nat
  myth : String
  truth : String
  deriving DecidableEq

/-- Database state touched by `fetch_next_myth_row`: the content table and
the `myth_cursors` table (primary key `singleton`, always written as `1`). -/
structure MythDB where
  dyslexia_myths : List MythRow
  myth_cursors : List (Nat × Nat)
  deriving DecidableEq

/-- `ORDER BY id ASC` over a set of rows (ids unique). -/
def sortById (rows : List MythRow) : List MythRow :=
  List.insertionSort (fun a b => a.id ≤ b.id) rows

/-- `fetch_next_myth_row(batch_size)` from `dyslexia_myths.py`.  The SQL
binds the parameters `(batch_size, batch_size - 1, batch_size)`:
`nxt` takes up to `batch_size` rows with id above `COALESCE(cursor, 0)`,
`wrap` takes up to `batch_size - 1` rows from the start, and the
`UNION ALL ... WHERE (SELECT COUNT(*) FROM nxt) < batch_size` clause appends
the whole of `wrap` whenever `nxt` came up short.  If the result is empty
the call rolls back and returns `[]`; otherwise the cursor is upserted to
the id of the last row fetched. -/
def fetch_next_myth_row (batch_size : Nat) (db : MythDB) :
    List MythRow × MythDB :=
  let cur := lookupCursor db.myth_cursors 1
  let nxt := (sortById (db.dyslexia_myths.filter
    (fun r => cur.getD 0 < r.id))).take batch_size
  let wrap := (sortById db.dyslexia_myths).take (batch_size - 1)
  let rows := nxt ++ (if nxt.length < batch_size then wrap else [])
  match rows.getLast? with
  | none => ([], db)
  | some last =>
      (rows, { db with myth_cursors := upsertCursor db.myth_cursors 1 last.id })

/-! ## canvas_detector.py: scorer data model -/

/-- Python's `round(x, 3)` on the embedded rational confidences: rounding
to the multiple of 1/1000 nearest to `q`, ties to even.  Working on the
numerator and denominator directly: with `n / d := q * 1000` in lowest
terms, `f := ⌊n / d⌋` and twice the remainder `r2 := 2 * (n - f * d)`, the
rounded numerator is `f + 1` when the fraction exceeds one half
(`d < r2`), `f` when below (`r2 < d`), and the even neighbour on a tie. -/
def pyRound3 (q : ℚ) : ℚ :=
  let n : ℤ := q.num * 1000
  let d : ℤ := (q.den : ℤ)
  let f : ℤ := Int.fdiv n d
  let r2 : ℤ := 2 * (n - f * d)
  let g : ℤ := if d < r2 then f + 1 else if r2 < d then f else if f % 2 = 0 then f else f + 1
  mkRat g 1000

/-- Tunable: strong single-letter evidence (`0.70` in the source; rational
literals are written with `mkRat` so that they evaluate definitionally). -/
def TOP_CONF_EASY : ℚ := mkRat 7 10

/-- The stricter threshold `TOP_CONF_EASY + 0.10` for accepting an allowed
equivalent (rather than exact) primary letter, precomputed. -/
def TOP_CONF_STRICT : ℚ := mkRat 8 10

/-- Tunable: dominance threshold across all detected letters (`0.60`). -/
def MIN_RATIO : ℚ := mkRat 6 10

/-- Tunable: symbols below this confidence are left out of the sequence (`0.30`). -/
def MIN_CONF_SYMBOL : ℚ := mkRat 3 10

/-- One entry of the `letters` list: a detected letter with its (rounded)
confidence. -/
structure DetectedSymbol where
  letter : Char
  confidence : ℚ
  deriving DecidableEq

/-- One entry of the `mismatches` list. -/
structure Mismatch where
  letter : Char
  count : Nat
  top_confidence : ℚ
  deriving DecidableEq

/-- The fixed decision tree of `reason` strings of the scorer, one
constructor per string of the source (interpolated values are carried as
arguments). -/
inductive Reason where
  | noLettersDetected
  | primaryStrong
  | dominance
  | noMatchingLetter
  | lowConfidencePrimary (conf : ℚ)
  | expectedNotPrimary
  | bothMustBePresent
  | orderViolation (e1 e2 : Char)
  | bothStrong
  | pairDominates
  | lowConfAndRatio
  deriving DecidableEq

/-- The result dictionary of `detect_handwritten_letters_from_base64`.
`top_match_confidence_per_letter` is only present in hard mode (`none`
elsewhere, mirroring the absent dictionary key). -/
structure MatchResult where
  mode : String
  expected_letter : String
  is_correct : Bool
  reason : Reason
  detected_count : Nat
  match_count : Nat
  top_match_confidence : ℚ
  match_ratio : ℚ
  sequence : List Char
  sequence_match : Bool
  letters : List DetectedSymbol
  mismatches : List Mismatch
  top_match_confidence_per_letter : Option ((Char × ℚ) × (Char × ℚ))
  deriving DecidableEq

/-- Keys of a Python dict built by insertion: the distinct elements in
order of first occurrence. -/
def pyKeys (l : List Char) : List Char :=
  l.foldl (fun acc c => if c ∈ acc then acc else acc ++ [c]) []

/-- Python's `max(keys, key=f)`: the first element attaining the maximum
(later elements replace the current best only when strictly greater).  The
scorer only calls it on non-empty key lists; the `[]` case is unreachable. -/
def pyMaxKey (f : Char → ℚ) : List Char → Char
  | [] => 'A'
  | k :: ks => ks.foldl (fun b k2 => if f b < f k2 then k2 else b) k

/-- Python's `max(xs, default=0.0)`: the default applies only to an empty
list. -/
def listMaxD : List ℚ → ℚ
  | [] => 0
  | x :: xs => xs.foldl max x

/-- `count[c]` of the per-letter stats loop (`defaultdict(int)`). -/
def countOf (letters : List DetectedSymbol) (c : Char) : Nat :=
  (letters.filter (fun s => s.letter = c)).length

/-- `top_conf[c]` of the per-letter stats loop (`defaultdict(float)`
accumulated with `max`, so 0 for an absent letter). -/
def topConfOf (letters : List DetectedSymbol) (c : Char) : ℚ :=
  (letters.filter (fun s => s.letter = c)).foldl (fun a s => max a s.confidence) 0

/-- The `EQUIV` dictionary of visually-equivalent letters.  The
two-character entries of the source (`'vv'`, `'VV'`, `'nn'`, `'NN'`) are
omitted: a detected letter is a single character and can never equal them. -/
def EQUIV (c : Char) : Option (List Char) :=
  match c with
  | 'o' => some ['o', 'O', '0', 'c', 'C', 'q', 'Q']
  | 'O' => some ['o', 'O', '0', 'C', 'Q']
  | 'c' => some ['c', 'C', 'o', 'O']
  | 'v' => some ['v', 'V', 'u', 'U', 'y', 'Y']
  | 'V' => some ['v', 'V', 'U', 'Y']
  | 'u' => some ['u', 'U', 'v', 'V']
  | 'U' => some ['u', 'U', 'V']
  | 'y' => some ['y', 'Y', 'v', 'V']
  | 'w' => some ['w', 'W']
  | 'W' => some ['w', 'W']
  | 'm' => some ['m', 'M']
  | 'M' => some ['m', 'M']
  | 'l' => some ['l', 'I', '1', '|']
  | 'I' => some ['I', 'l', '1', '|']
  | 'p' => some ['p', 'P', 'b']
  | 'P' => some ['P', 'p', 'B']
  | 'q' => some ['q', 'Q', 'g']
  | 'Q' => some ['Q', 'q']
  | 'x' => some ['x', 'X', 'k', 'K']
  | 'X' => some ['x', 'X']
  | 'z' => some ['z', 'Z', '2']
  | 'Z' => some ['z', 'Z']
  | _ => none

/-- `EQUIV.get(exp, {exp})`. -/
def allowedFor (c : Char) : List Char := (EQUIV c).getD [c]

/-- The extraction loop over the OCR symbols (lines 151-163): keep single
ASCII alphabetic characters, normalize their case per `is_capital`, and
store them with `round(conf, 3)`. -/
def extractLetters (is_capital : String) (syms : List (Char × ℚ)) : List DetectedSymbol :=
  syms.filterMap (fun s =>
    if s.1.isAlpha ∧ s.1.toNat < 128 then
      some { letter := if is_capital = "capital" then s.1.toUpper else s.1.toLower,
             confidence := pyRound3 s.2 }
    else none)

/-- The `seq_chars` accumulated by the same loop: the normalized characters
whose raw confidence reaches `MIN_CONF_SYMBOL`. -/
def extractSeq (is_capital : String) (syms : List (Char × ℚ)) : List Char :=
  syms.filterMap (fun s =>
    if s.1.isAlpha ∧ s.1.toNat < 128 ∧ MIN_CONF_SYMBOL ≤ s.2 then
      some (if is_capital = "capital" then s.1.toUpper else s.1.toLower)
    else none)

/-- Python's stable `sort(key=lambda kv: (-count, -top_confidence))`. -/
def sortMismatches (l : List Mismatch) : List Mismatch :=
  List.insertionSort
    (fun a b => b.count < a.count ∨ (a.count = b.count ∧ b.top_confidence ≤ a.top_confidence)) l

/-- The scorer of `detect_handwritten_letters_from_base64` (lines 146-307),
taking the detected symbols `(character, raw confidence)` in reading order.
`expectedNorm` is the case-normalized expected answer (validation
guarantees one character in easy mode and two in hard mode). -/
def scoreDetections (is_capital level : String) (expectedNorm : List Char)
    (syms : List (Char × ℚ)) : MatchResult :=
  let letters := extractLetters is_capital syms
  let seq := extractSeq is_capital syms
  let total_alpha := letters.length
  if total_alpha = 0 then
    { mode := is_capital ++ "-" ++ level
      expected_letter := String.mk expectedNorm
      is_correct := false
      reason := .noLettersDetected
      detected_count := 0
      match_count := 0
      top_match_confidence := 0
      match_ratio := 0
      sequence := seq
      sequence_match := false
      letters := letters
      mismatches := []
      top_match_confidence_per_letter := none }
  else
    let keys := pyKeys (letters.map (fun s => s.letter))
    if level = "easy" then
      let exp := expectedNorm.headI
      let allowed := allowedFor exp
      let matches_list := letters.filter (fun s => s.letter ∈ allowed)
      let match_count := matches_list.length
      let ratio : ℚ := if total_alpha ≠ 0 then mkRat (match_count : ℤ) total_alpha else 0
      let top := listMaxD (matches_list.map (fun s => s.confidence))
      let primary_letter := pyMaxKey (topConfOf letters) keys
      let primary_conf := topConfOf letters primary_letter
      let primary_ok : Bool := decide
        ((primary_letter = exp ∧ TOP_CONF_EASY ≤ primary_conf) ∨
         (primary_letter ∈ allowed ∧ primary_letter ≠ exp ∧
          TOP_CONF_STRICT ≤ primary_conf))
      let dominates : Bool := decide ( MIN_RATIO ≤ ratio ∧ 1 ≤ match_count)
      let mismatches := sortMismatches
        ((keys.filter (fun k => k ∉ allowed)).map
          (fun k => { letter := k, count := countOf letters k,
                      top_confidence := pyRound3 (topConfOf letters k) }) ++
         (if match_count = 0 then [{ letter := exp, count := 1, top_confidence := 0 }] else []))
      { mode := is_capital ++ "-easy"
        expected_letter := String.mk [exp]
        is_correct := primary_ok || dominates
        reason :=
          if primary_ok then .primaryStrong
          else if dominates then .dominance
          else if match_count = 0 then .noMatchingLetter
          else if primary_letter ∈ allowed then .lowConfidencePrimary primary_conf
          else .expectedNotPrimary
        detected_count := total_alpha
        match_count := match_count
        top_match_confidence := pyRound3 top
        match_ratio := pyRound3 ratio
        sequence := seq
        sequence_match := decide (exp ∈ seq)
        letters := letters
        mismatches := mismatches
        top_match_confidence_per_letter := none }
    else
      let exp1 := expectedNorm.getD 0 'A'
      let exp2 := expectedNorm.getD 1 'A'
      let c1 := countOf letters exp1
      let c2 := countOf letters exp2
      let top1 := topConfOf letters exp1
      let top2 := topConfOf letters exp2
      let total_matches := c1 + c2
      let ratio : ℚ := if total_alpha ≠ 0 then mkRat (total_matches : ℤ) total_alpha else 0
      let sequence_ok : Bool := decide ([exp1, exp2] <:+: seq)
      let both_present : Bool := decide (1 ≤ c1 ∧ 1 ≤ c2)
      let conf_ok : Bool := decide (TOP_CONF_EASY ≤ min top1 top2)
      let ratio_ok : Bool := decide ( MIN_RATIO ≤ ratio)
      let mismatches := sortMismatches
        ((keys.filter (fun k => ¬ (k = exp1 ∨ k = exp2))).map
          (fun k => { letter := k, count := countOf letters k,
                      top_confidence := pyRound3 (topConfOf letters k) }) ++
         (if c1 = 0 then [{ letter := exp1, count := 1, top_confidence := 0 }] else []) ++
         (if c2 = 0 then [{ letter := exp2, count := 1, top_confidence := 0 }] else []))
      { mode := is_capital ++ "-hard"
        expected_letter := String.mk expectedNorm
        is_correct := both_present && sequence_ok && (conf_ok || ratio_ok)
        reason :=
          if ¬ both_present then .bothMustBePresent
          else if ¬ sequence_ok then .orderViolation exp1 exp2
          else if conf_ok then .bothStrong
          else if ratio_ok then .pairDominates
          else .lowConfAndRatio
        detected_count := total_alpha
        match_count := total_matches
        top_match_confidence := pyRound3 (min top1 top2)
        match_ratio := pyRound3 ratio
        sequence := seq
        sequence_match := sequence_ok
        letters := letters
        mismatches := mismatches
        top_match_confidence_per_letter :=
          some ((exp1, pyRound3 top1), (exp2, pyRound3 top2)) }

/-! ## canvas_detector.py: validation, base64 handling, HTTP errors -/

/-- An `HTTPException(status_code, detail)`. -/
structure HErr where
  status : Nat
  detail : String
  deriving DecidableEq

/-- The status code of a failed call, if it failed. -/
def errStatus {α : Type} : Except HErr α → Option Nat
  | .error e => some e.status
  | .ok _ => none

/-- `b64_image.split(",", 1)[1]` when a data-URL header is present
(`"," in b64_image`), else the input unchanged: everything after the first
comma. -/
def stripDataUrlHeader (s : String) : String :=
  if ',' ∈ s.toList then ⟨(s.toList.dropWhile (fun c => c ≠ ',')).tail⟩ else s

/-- `"".join(s.split())`: drop all whitespace characters. -/
def removeWhitespace (s : String) : String :=
  ⟨s.toList.filter (fun c => ¬ c.isWhitespace)⟩

/-- The base64 cleanup of lines 113-115: strip any data-URL header, then
strip whitespace. -/
def cleanupBase64 (s : String) : String :=
  removeWhitespace (stripDataUrlHeader s)

/-- A character of the base64 alphabet. -/
def isBase64Digit (c : Char) : Bool :=
  c.isAlpha || c.isDigit || c = '+' || c = '/'

/-- Success of Python's `base64.b64decode(s, validate=True)`: the string is
base64-alphabet characters followed by at most two `'='` pads, and its
length is a multiple of four. -/
def b64decodeValidates (s : String) : Bool :=
  let cs := s.toList
  let dataPart := cs.takeWhile (fun c => c ≠ '=')
  let padPart := cs.drop dataPart.length
  dataPart.all isBase64Digit && padPart.all (fun c => c = '=') &&
    decide (padPart.length ≤ 2) && decide (cs.length % 4 = 0)

/-- Outcome of the external OCR call, abstracting lines 124-144: the POST call
can fail in transport (`requests` exception), the provider can return an
error payload, or a list of detected symbols is extracted. -/

inductive OcrOutcome where
  | transportError (msg : String)
  | apiError (msg : String)
  | ok (syms : List (Char × ℚ))

/-- `detect_handwritten_letters_from_base64` (lines 76-307): input
validation and normalization, base64 cleanup and validation (each failure
an HTTP 400), then the OCR call (failures becoming HTTP 502) and the
scorer on the detected symbols.  The pixel-level preprocessing between
validation and the call does not affect which branch is taken. -/
def detect_handwritten_letters_from_base64
    (b64_image expected_letter is_capital level : String)
    (ocr : OcrOutcome) : Except HErr MatchResult :=
  if expected_letter.trim = "" then
    .error ⟨400, "expected_letter is required"⟩
  else if ¬ (is_capital = "capital" ∨ is_capital = "small") then
    .error ⟨400, "is_capital must be 'capital' or 'small'"⟩
  else if ¬ (level = "easy" ∨ level = "hard") then
    .error ⟨400, "level must be 'easy' or 'hard'"⟩
  else
    let el := expected_letter.trim
    if el.toList.all Char.isAlpha = false then
      .error ⟨400, "expected_letter must be letters only"⟩
    else if level = "easy" ∧ el.length ≠ 1 then
      .error ⟨400, "For 'easy', expected_letter must be exactly 1 letter"⟩
    else if level = "hard" ∧ el.length ≠ 2 then
      .error ⟨400, "For 'hard', expected_letter must be exactly 2 letters, e.g. 'ab'"⟩
    else
      let expected_norm := (if is_capital = "capital" then el.toUpper else el.toLower).toList
      let b := cleanupBase64 b64_image
      if b = "" then
        .error ⟨400, "Empty base64 image"⟩
      else if b64decodeValidates b = false then
        .error ⟨400, "Invalid base64 image"⟩
      else
        match ocr with
        | .transportError msg => .error ⟨502, "Vision API request failed: " ++ msg⟩
        | .apiError msg => .error ⟨502, msg⟩
        | .ok syms => .ok (scoreDetections is_capital level expected_norm syms)

/-! ## chatbot.py / main.py: the /parent_chat handler -/

/-- The positional parameters of `def get_parent_answer(question, kb_hit=None)`
in `chatbot.py`. -/
def get_parent_answer_params : List String := ["question", "kb_hit"]

/-- How many of those parameters carry default values (`kb_hit=None`). -/
def get_parent_answer_defaults : Nat := 1

/-- Python positional-call semantics: a call binds its positional arguments
to the parameters; fewer arguments than non-default parameters or more
arguments than parameters raises a `TypeError`, otherwise the body runs
(its result abstracted as `body`). -/
def pyCallPositional {α β : Type} (params : List String) (defaults : Nat)
    (args : List β) (body : α) : Except String α :=
  if params.length - defaults ≤ args.length ∧ args.length ≤ params.length then
    .ok body
  else
    .error "get_parent_answer() takes from 1 to 2 positional arguments but 3 were given"

/-- A value passed at the `/parent_chat` call site: `req.question` and
`api_key` are strings, `req.kb_hit` an optional string. -/
def ChatArg : Type := String ⊕ Option String

/-- Response of the `/parent_chat` handler: either the success envelope
`{"status": "success", "data": result}` or an `HTTPException`. -/
inductive ChatResponse (α : Type) where
  | success (data : α)
  | httpError (status : Nat) (detail : String)
  deriving DecidableEq

/-- The `/parent_chat` handler of `main.py` (lines 116-124): it calls
`get_parent_answer(req.question, req.kb_hit, api_key)` — three positional
arguments — and wraps any exception in an HTTP 500 "Chatbot error".
`body` abstracts what the chatbot body would return if it ran. -/
def parent_chat {α : Type} (question : String) (kb_hit : Option String)
    (api_key : String) (body : α) : ChatResponse α :=
  match pyCallPositional get_parent_answer_params get_parent_answer_defaults
      [Sum.inl question, Sum.inr kb_hit, Sum.inl api_key] body with
  | .ok result => .success result
  | .error e => .httpError 500 ("Chatbot error: " ++ e)

/-! ## Analysis helpers and concrete instances -/

/-- The id the cursor store serves next when the table holds exactly the
ids 1, 2, 3 and the stored cursor value (coalesced to 0) is `c`. -/
def nextOf (c : Nat) : Nat :=
  if c < 1 then 1 else if c < 2 then 2 else if c < 3 then 3 else 1

/-- A sentence database whose "easy" category holds exactly the ids 1, 2, 3
(listed out of order), next to an unrelated "hard" row and cursor. -/
def exSentenceDB : SentenceDB :=
  { sentence_jumbling :=
      [ { sentence_id := 2, original_sentence := "o2", jumbled_sentence := "j2", difficulty_level := "easy" }
      , { sentence_id := 1, original_sentence := "o1", jumbled_sentence := "j1", difficulty_level := "easy" }
      , { sentence_id := 3, original_sentence := "o3", jumbled_sentence := "j3", difficulty_level := "easy" }
      , { sentence_id := 7, original_sentence := "ox", jumbled_sentence := "jx", difficulty_level := "hard" } ]
    sentence_cursors := [("hard", 2)] }

/-- A sentence database with no "Medium" rows (but a stale cursor row). -/
def exNoRowSentenceDB : SentenceDB :=
  { sentence_jumbling :=
      [ { sentence_id := 5, original_sentence := "o", jumbled_sentence := "j", difficulty_level := "easy" } ]
    sentence_cursors := [("Medium", 9), ("easy", 5)] }

/-- A reading database with no "Medium" rows. -/
def exNoRowReadingDB : ReadingDB :=
  { reading_speed := [ { id := 4, text := "t", level := "Hard", word_count := 12 } ]
    reading_speed_cursors := [("Hard", 4)] }

/-- A myth database holding the ids 1, 2, 3 with the cursor at 1. -/
def exMythDB : MythDB :=
  { dyslexia_myths :=
      [ { id := 1, myth := "m1", truth := "t1" }
      , { id := 2, myth := "m2", truth := "t2" }
      , { id := 3, myth := "m3", truth := "t3" } ]
    myth_cursors := [(1, 1)] }

/-! ## Helper lemmas -/

theorem lookupCursor_upsert {κ : Type} [DecidableEq κ] (cs : List (κ × Nat)) (k : κ) (v : Nat) :
    lookupCursor (upsertCursor cs k v) k = some v := by
  induction cs with
  | nil => simp [upsertCursor, lookupCursor]
  | cons p rest ih =>
      obtain ⟨k', v'⟩ := p
      by_cases h : k' = k
      · subst h; simp [upsertCursor, lookupCursor]
      · simp [upsertCursor, lookupCursor, h, ih]

theorem foldlMin_spec {α : Type} (f : α → Nat) (xs : List α) :
    ∀ b : α,
      (xs.foldl (fun b r => if f r < f b then r else b) b = b ∨
       xs.foldl (fun b r => if f r < f b then r else b) b ∈ xs) ∧
      f (xs.foldl (fun b r => if f r < f b then r else b) b) ≤ f b ∧
      ∀ r ∈ xs, f (xs.foldl (fun b r => if f r < f b then r else b) b) ≤ f r := by
  induction xs with
  | nil => intro b; exact ⟨Or.inl rfl, le_refl _, by simp⟩
  | cons x rest ih =>
      intro b
      simp only [List.foldl_cons]
      obtain ⟨hmem, hle, hall⟩ := ih (if f x < f b then x else b)
      refine ⟨?_, ?_, ?_⟩
      · rcases hmem with h | h
        · rw [h]
          by_cases hxb : f x < f b
          · simp [hxb]
          · simp [hxb]
        · exact Or.inr (List.mem_cons_of_mem _ h)
      · by_cases hxb : f x < f b
        · rw [if_pos hxb] at hle ⊢; omega
        · rw [if_neg hxb] at hle ⊢; omega
      · intro r hr
        rcases List.mem_cons.mp hr with h | h
        · rw [h]
          by_cases hxb : f x < f b
          · rw [if_pos hxb] at hle ⊢; omega
          · rw [if_neg hxb] at hle ⊢; omega
        · exact hall r h

theorem minByKey_spec {α : Type} (f : α → Nat) (l : List α) (m : α)
    (h : minByKey f l = some m) : m ∈ l ∧ ∀ r ∈ l, f m ≤ f r := by
  cases l with
  | nil => simp [minByKey] at h
  | cons x xs =>
      simp only [minByKey, Option.some.injEq] at h
      subst h
      obtain ⟨hmem, hle, hall⟩ := foldlMin_spec f xs x
      constructor
      · rcases hmem with h | h
        · rw [h]; exact List.mem_cons_self _ _
        · exact List.mem_cons_of_mem _ h
      · intro r hr
        rcases List.mem_cons.mp hr with h | h
        · subst h; exact hle
        · exact hall r h

theorem minByKey_isSome {α : Type} (f : α → Nat) (l : List α) (h : l ≠ []) :
    ∃ m, minByKey f l = some m := by
  cases l with
  | nil => exact absurd rfl h
  | cons x xs => exact ⟨_, rfl⟩

theorem mem_foldl_insertKeys (l : List Char) :
    ∀ (acc : List Char) (a : Char),
      a ∈ l.foldl (fun acc c => if c ∈ acc then acc else acc ++ [c]) acc ↔ a ∈ acc ∨ a ∈ l := by
  induction l with
  | nil => intro acc a; simp
  | cons c rest ih =>
      intro acc a
      simp only [List.foldl_cons]
      rw [ih]
      by_cases h : c ∈ acc
      · rw [if_pos h]
        simp only [List.mem_cons]
        constructor
        · rintro (h1 | h2)
          · exact Or.inl h1
          · exact Or.inr (Or.inr h2)
        · rintro (h1 | h2 | h3)
          · exact Or.inl h1
          · exact Or.inl (h2 ▸ h)
          · exact Or.inr h3
      · rw [if_neg h]
        simp only [List.mem_append, List.mem_cons, List.mem_singleton]
        tauto

theorem mem_pyKeys (l : List Char) (a : Char) : a ∈ pyKeys l ↔ a ∈ l := by
  unfold pyKeys
  rw [mem_foldl_insertKeys]
  simp

theorem foldlArgmax_eq {f : Char → ℚ} (e : Char) :
    ∀ (ks : List Char) (b : Char),
      (b = e ∨ e ∈ ks) →
      (b ≠ e → f b < f e) →
      (∀ k ∈ ks, k ≠ e → f k < f e) →
      ks.foldl (fun b k2 => if f b < f k2 then k2 else b) b = e := by
  intro ks
  induction ks with
  | nil =>
      intro b hb hblt _
      rcases hb with h | h
      · simpa using h
      · simp at h
  | cons k rest ih =>
      intro b hb hblt hall
      simp only [List.foldl_cons]
      apply ih
      · by_cases hk : k = e
        · subst hk
          left
          by_cases hbe : b = k
          · subst hbe; split <;> rfl
          · rw [if_pos (hblt hbe)]
        · rcases hb with hbe | hmem
          · subst hbe
            left
            have hfk := hall k (List.mem_cons_self _ _) hk
            rw [if_neg (not_lt.mpr (le_of_lt hfk))]
          · rcases List.mem_cons.mp hmem with h | h
            · exact absurd h.symm hk
            · exact Or.inr h
      · intro hb'
        by_cases hc : f b < f k
        · rw [if_pos hc] at hb' ⊢
          exact hall k (List.mem_cons_self _ _) hb'
        · rw [if_neg hc] at hb' ⊢
          exact hblt hb'
      · intro k2 hk2 hne
        exact hall k2 (List.mem_cons_of_mem _ hk2) hne

theorem pyMaxKey_eq_of_strict {f : Char → ℚ} {keys : List Char} {e : Char}
    (he : e ∈ keys) (hmax : ∀ k ∈ keys, k ≠ e → f k < f e) :
    pyMaxKey f keys = e := by
  cases keys with
  | nil => simp at he
  | cons k ks =>
      unfold pyMaxKey
      exact foldlArgmax_eq e ks k
        (by rcases List.mem_cons.mp he with h | h
            · exact Or.inl h.symm
            · exact Or.inr h)
        (fun hne => hmax k (List.mem_cons_self _ _) hne)
        (fun k2 h2 hne => hmax k2 (List.mem_cons_of_mem _ h2) hne)

theorem topConfOf_lt {letters : List DetectedSymbol} {c : Char} {B : ℚ}
    (hB : 0 < B) (h : ∀ s ∈ letters, s.letter = c → s.confidence < B) :
    topConfOf letters c < B := by
  unfold topConfOf
  have key : ∀ (xs : List DetectedSymbol) (a : ℚ), a < B →
      (∀ s ∈ xs, s.confidence < B) →
      xs.foldl (fun a s => max a s.confidence) a < B := by
    intro xs
    induction xs with
    | nil => intro a ha _; simpa using ha
    | cons s rest ih =>
        intro a ha hall
        simp only [List.foldl_cons]
        exact ih _ (max_lt ha (hall s (List.mem_cons_self _ _)))
          (fun s' h' => hall s' (List.mem_cons_of_mem _ h'))
  apply key _ _ hB
  intro s hs
  have hm := List.mem_filter.mp hs
  exact h s hm.1 (by simpa using hm.2)

theorem topConfOf_exists {letters : List DetectedSymbol} {c : Char} {t : ℚ}
    (ht : 0 < t) (h : t ≤ topConfOf letters c) :
    ∃ s ∈ letters, s.letter = c ∧ t ≤ s.confidence := by
  unfold topConfOf at h
  have key : ∀ (xs : List DetectedSymbol) (a : ℚ),
      t ≤ xs.foldl (fun a s => max a s.confidence) a →
      t ≤ a ∨ ∃ s ∈ xs, t ≤ s.confidence := by
    intro xs
    induction xs with
    | nil => intro a ha; exact Or.inl ha
    | cons s rest ih =>
        intro a ha
        rcases ih (max a s.confidence) ha with h' | h'
        · rcases le_max_iff.mp h' with h'' | h''
          · exact Or.inl h''
          · exact Or.inr ⟨s, List.mem_cons_self _ _, h''⟩
        · obtain ⟨s', hs', ht'⟩ := h'
          exact Or.inr ⟨s', List.mem_cons_of_mem _ hs', ht'⟩
  rcases key _ _ h with h' | h'
  · exact absurd (lt_of_lt_of_le ht h') (lt_irrefl 0)
  · obtain ⟨s, hs, ht'⟩ := h'
    have hm := List.mem_filter.mp hs
    exact ⟨s, hm.1, by simpa using hm.2, ht'⟩

theorem le_listMaxD {x : ℚ} {xs : List ℚ} (h : x ∈ xs) : x ≤ listMaxD xs := by
  cases xs with
  | nil => simp at h
  | cons y ys =>
      unfold listMaxD
      have key : ∀ (l : List ℚ) (a : ℚ), (x ≤ a ∨ x ∈ l) → x ≤ l.foldl max a := by
        intro l
        induction l with
        | nil =>
            intro a h'
            rcases h' with h' | h'
            · exact h'
            · simp at h'
        | cons z zs ih =>
            intro a h'
            simp only [List.foldl_cons]
            apply ih
            rcases h' with h' | h'
            · exact Or.inl (le_trans h' (le_max_left _ _))
            · rcases List.mem_cons.mp h' with h'' | h''
              · exact Or.inl (h'' ▸ le_max_right _ _)
              · exact Or.inr h''
      apply key
      rcases List.mem_cons.mp h with h' | h'
      · exact Or.inl (le_of_eq h')
      · exact Or.inr h'

theorem allowedFor_self (c : Char) : c ∈ allowedFor c := by
  unfold allowedFor EQUIV
  split <;> simp_all

theorem fetch_sentence_of_nxt (level : String) (db : SentenceDB) (m : SentenceRow)
    (hm : minByKey (fun r => r.sentence_id)
      ((db.sentence_jumbling.filter (fun r => r.difficulty_level = level)).filter
        (fun r => (lookupCursor db.sentence_cursors level).getD 0 < r.sentence_id)) = some m) :
    fetch_next_sentence_row level db =
      (some m, { db with sentence_cursors := upsertCursor db.sentence_cursors level m.sentence_id }) := by
  simp only [fetch_next_sentence_row]
  rw [hm]

theorem fetch_sentence_of_wrap (level : String) (db : SentenceDB) (m : SentenceRow)
    (hn : minByKey (fun r => r.sentence_id)
      ((db.sentence_jumbling.filter (fun r => r.difficulty_level = level)).filter
        (fun r => (lookupCursor db.sentence_cursors level).getD 0 < r.sentence_id)) = none)
    (hm : minByKey (fun r => r.sentence_id)
      (db.sentence_jumbling.filter (fun r => r.difficulty_level = level)) = some m) :
    fetch_next_sentence_row level db =
      (some m, { db with sentence_cursors := upsertCursor db.sentence_cursors level m.sentence_id }) := by
  simp only [fetch_next_sentence_row]
  rw [hn, hm]

theorem minNext_eq (L : List SentenceRow) (c : Nat)
    (H : (L.map (fun r => r.sentence_id)).Perm [1, 2, 3]) (hc : c < 3) :
    ∃ m, minByKey (fun r => r.sentence_id) (L.filter (fun r => c < r.sentence_id)) = some m ∧
      m.sentence_id = nextOf c := by
  have hmem : ∀ a : Nat, (∃ r, r ∈ L ∧ r.sentence_id = a) ↔ a ∈ ([1, 2, 3] : List Nat) := by
    intro a
    rw [← H.mem_iff]
    constructor
    · rintro ⟨r, hr, rfl⟩; exact List.mem_map_of_mem _ hr
    · intro ha
      obtain ⟨r, hr, ha'⟩ := List.mem_map.mp ha
      exact ⟨r, hr, ha'⟩
  have hc3 : c = 0 ∨ c = 1 ∨ c = 2 := by omega
  have htmem : nextOf c ∈ ([1, 2, 3] : List Nat) := by
    rcases hc3 with rfl | rfl | rfl <;> decide
  have htgt : c < nextOf c := by
    rcases hc3 with rfl | rfl | rfl <;> decide
  have htmin : ∀ a ∈ ([1, 2, 3] : List Nat), c < a → nextOf c ≤ a := by
    rcases hc3 with rfl | rfl | rfl <;> decide
  obtain ⟨rt, hrt, hrtid⟩ := (hmem (nextOf c)).mpr htmem
  have hrtF : rt ∈ L.filter (fun r => c < r.sentence_id) :=
    List.mem_filter.mpr ⟨hrt, by simp [hrtid, htgt]⟩
  have hFne : L.filter (fun r => c < r.sentence_id) ≠ [] := by
    intro h
    rw [h] at hrtF
    simp at hrtF
  obtain ⟨m, hm⟩ := minByKey_isSome _ _ hFne
  obtain ⟨hmF, hmin⟩ := minByKey_spec _ _ _ hm
  have hmL := (List.mem_filter.mp hmF).1
  have hmgt : c < m.sentence_id := by
    have := (List.mem_filter.mp hmF).2
    simpa using this
  have hmid3 : m.sentence_id ∈ ([1, 2, 3] : List Nat) := (hmem m.sentence_id).mp ⟨m, hmL, rfl⟩
  have h1 : m.sentence_id ≤ nextOf c := by
    have h' : m.sentence_id ≤ rt.sentence_id := hmin rt hrtF
    omega
  have h2 : nextOf c ≤ m.sentence_id := htmin _ hmid3 hmgt
  exact ⟨m, hm, by omega⟩

theorem minNext_wrap (L : List SentenceRow) (c : Nat)
    (H : (L.map (fun r => r.sentence_id)).Perm [1, 2, 3]) (hc : ¬ c < 3) :
    L.filter (fun r => c < r.sentence_id) = [] ∧
    ∃ m, minByKey (fun r => r.sentence_id) L = some m ∧ m.sentence_id = 1 := by
  have hmem : ∀ a : Nat, (∃ r, r ∈ L ∧ r.sentence_id = a) ↔ a ∈ ([1, 2, 3] : List Nat) := by
    intro a
    rw [← H.mem_iff]
    constructor
    · rintro ⟨r, hr, rfl⟩; exact List.mem_map_of_mem _ hr
    · intro ha
      obtain ⟨r, hr, ha'⟩ := List.mem_map.mp ha
      exact ⟨r, hr, ha'⟩
  have hbound : ∀ r ∈ L, r.sentence_id ≤ 3 := by
    intro r hr
    have := (hmem r.sentence_id).mp ⟨r, hr, rfl⟩
    simp at this
    omega
  constructor
  · rw [List.filter_eq_nil_iff]
    intro r hr
    have := hbound r hr
    simp
    omega
  · have hLne : L ≠ [] := by
      intro h
      subst h
      have := H.nil_eq
      simp at this
    obtain ⟨m, hm⟩ := minByKey_isSome _ _ hLne
    obtain ⟨hmL, hmin⟩ := minByKey_spec _ _ _ hm
    obtain ⟨r1, hr1, hr1id⟩ := (hmem 1).mpr (by decide)
    have h1 : m.sentence_id ≤ 1 := by
      have h' : m.sentence_id ≤ r1.sentence_id := hmin r1 hr1
      omega
    have hmid3 : m.sentence_id ∈ ([1, 2, 3] : List Nat) := (hmem m.sentence_id).mp ⟨m, hmL, rfl⟩
    have h2 : 1 ≤ m.sentence_id := by
      simp at hmid3
      omega
    exact ⟨m, hm, by omega⟩

theorem fetch_sentence_step (level : String) (db : SentenceDB)
    (H : ((db.sentence_jumbling.filter (fun r => r.difficulty_level = level)).map
      (fun r => r.sentence_id)).Perm [1, 2, 3]) :
    ∃ r : SentenceRow,
      fetch_next_sentence_row level db =
        (some r, { db with sentence_cursors := upsertCursor db.sentence_cursors level r.sentence_id }) ∧
      r.sentence_id = nextOf ((lookupCursor db.sentence_cursors level).getD 0) := by
  by_cases hc : (lookupCursor db.sentence_cursors level).getD 0 < 3
  · obtain ⟨m, hm, hid⟩ := minNext_eq _ _ H hc
    exact ⟨m, fetch_sentence_of_nxt level db m hm, hid⟩
  · obtain ⟨hnil, m, hm, hid⟩ := minNext_wrap _ ((lookupCursor db.sentence_cursors level).getD 0) H hc
    refine ⟨m, fetch_sentence_of_wrap level db m ?_ hm, ?_⟩
    · rw [hnil]; rfl
    · rw [hid]
      unfold nextOf
      rw [if_neg (by omega), if_neg (by omega), if_neg hc]

theorem serveIds_cycle (level : String) :
    ∀ (n j : Nat) (db : SentenceDB), j < 3 →
      ((db.sentence_jumbling.filter (fun r => r.difficulty_level = level)).map
        (fun r => r.sentence_id)).Perm [1, 2, 3] →
      ((j = 0 ∧ lookupCursor db.sentence_cursors level = none) ∨
        lookupCursor db.sentence_cursors level = some ((j + 2) % 3 + 1)) →
      serveIds level db n = (List.range n).map (fun k => (j + k) % 3 + 1) := by
  intro n
  induction n with
  | zero => intro j db _ _ _; simp [serveIds]
  | succ n ih =>
      intro j db hj H hcur
      obtain ⟨r, hfetch, hrid⟩ := fetch_sentence_step level db H
      have hr1 : r.sentence_id = j + 1 := by
        rcases hcur with ⟨hj0, hnone⟩ | hsome
        · subst hj0
          rw [hnone] at hrid
          simpa [nextOf] using hrid
        · rw [hsome] at hrid
          simp only [Option.getD_some] at hrid
          have hj3 : j = 0 ∨ j = 1 ∨ j = 2 := by omega
          rcases hj3 with rfl | rfl | rfl <;> simpa [nextOf] using hrid
      rw [serveIds, hfetch]
      dsimp only
      have hup : lookupCursor
          (upsertCursor db.sentence_cursors level r.sentence_id) level = some (j + 1) := by
        rw [lookupCursor_upsert, hr1]
      have ihapp := ih ((j + 1) % 3)
        { db with sentence_cursors := upsertCursor db.sentence_cursors level r.sentence_id }
        (by omega) H
        (Or.inr (by
          rw [hup]
          congr 1
          omega))
      rw [ihapp, hr1, List.range_succ_eq_map, List.map_cons, List.map_map]
      congr 1
      · omega
      · have : ((fun k => (j + k) % 3 + 1) ∘ Nat.succ) = fun k => ((j + 1) % 3 + k) % 3 + 1 := by
          funext k
          simp [Function.comp]
          omega
        rw [this]

/-! ## Claims -/

/-- Claim C1: for every category (difficulty level) whose content table
holds exactly the rows with ids 1, 2 and 3, repeated calls to
`fetch_next_sentence_row` starting from an absent cursor serve the rows in
the cyclic order 1, 2, 3, 1, 2, 3, ...: call number k (0-based) serves the
row with id k % 3 + 1. -/
theorem claim_C1_sentence_next_cycles (level : String) (db : SentenceDB)
    (H : ((db.sentence_jumbling.filter (fun r => r.difficulty_level = level)).map
      (fun r => r.sentence_id)).Perm [1, 2, 3])
    (h0 : lookupCursor db.sentence_cursors level = none) :
    ∀ n : Nat, serveIds level db n = (List.range n).map (fun k => k % 3 + 1) := by
  intro n
  have h := serveIds_cycle level n 0 db (by omega) H (Or.inl ⟨rfl, h0⟩)
  simpa using h

/-- Witness for claim C1: a concrete database with "easy" rows 1, 2, 3 out
of order; seven consecutive calls serve 1, 2, 3, 1, 2, 3, 1. -/
theorem claim_C1_witness :
    ((exSentenceDB.sentence_jumbling.filter (fun r => r.difficulty_level = "easy")).map
      (fun r => r.sentence_id)).Perm [1, 2, 3] ∧
    lookupCursor exSentenceDB.sentence_cursors "easy" = none ∧
    serveIds "easy" exSentenceDB 7 = [1, 2, 3, 1, 2, 3, 1] := by
  refine ⟨by decide, by decide, ?_⟩
  rw [claim_C1_sentence_next_cycles "easy" exSentenceDB (by decide) (by decide) 7]
  decide

/-- Claim C8: for every category key with no content row, the next-row
operation (both the sentence and the reading-speed instance) returns no row
and leaves the whole database state, in particular the cursor table,
unchanged. -/
theorem claim_C8_empty_category_unchanged (level : String) (sdb : SentenceDB) (rdb : ReadingDB)
    (hs : sdb.sentence_jumbling.filter (fun r => r.difficulty_level = level) = [])
    (hr : rdb.reading_speed.filter (fun r => r.level = level) = []) :
    fetch_next_sentence_row level sdb = (none, sdb) ∧
    fetch_next_reading_row level rdb = (none, rdb) := by
  constructor
  · simp only [fetch_next_sentence_row, hs]
    rfl
  · simp only [fetch_next_reading_row, hr]
    rfl

/-- Witness for claim C8: concrete databases with no "Medium" rows. -/
theorem claim_C8_witness :
    exNoRowSentenceDB.sentence_jumbling.filter (fun r => r.difficulty_level = "Medium") = [] ∧
    exNoRowReadingDB.reading_speed.filter (fun r => r.level = "Medium") = [] ∧
    fetch_next_sentence_row "Medium" exNoRowSentenceDB = (none, exNoRowSentenceDB) ∧
    fetch_next_reading_row "Medium" exNoRowReadingDB = (none, exNoRowReadingDB) := by
  refine ⟨by decide, by decide, ?_, ?_⟩
  · exact (claim_C8_empty_category_unchanged "Medium" exNoRowSentenceDB exNoRowReadingDB
      (by decide) (by decide)).1
  · exact (claim_C8_empty_category_unchanged "Medium" exNoRowSentenceDB exNoRowReadingDB
      (by decide) (by decide)).2

/-- Claim C4 is a code bug: with table ids {1, 2, 3}, cursor at 1 and batch
size N = 3, `fetch_next_myth_row` returns FOUR rows, ids [2, 3, 1, 2] (a
duplicate within the batch, more than N rows), and moves the cursor to 2
even though id 3 was served, so the next batch repeats [3, 1, 2] forever.
The claim (and the spec, "serves up to N rows following the same
next-then-wrap logic") describes the evident intent; the SQL appends the
whole wrap batch whenever `nxt` is short instead of topping the batch up. -/
theorem claim_C4_myth_batch_eval :
    (fetch_next_myth_row 3 exMythDB).1.map (fun r => r.id) = [2, 3, 1, 2] ∧
    ¬ ((fetch_next_myth_row 3 exMythDB).1.length ≤ 3) ∧
    lookupCursor (fetch_next_myth_row 3 exMythDB).2.myth_cursors 1 = some 2 := by
  decide

theorem topConf_le_matchMax {letters : List DetectedSymbol} {e c : Char} {t : ℚ}
    (hc : c ∈ allowedFor e) (ht : 0 < t) (h : t ≤ topConfOf letters c) :
    t ≤ listMaxD ((letters.filter (fun s => s.letter ∈ allowedFor e)).map
      (fun s => s.confidence)) := by
  obtain ⟨s, hs, hsl, hconf⟩ := topConfOf_exists ht h
  have hsm : s ∈ letters.filter (fun s => s.letter ∈ allowedFor e) :=
    List.mem_filter.mpr ⟨hs, by simp [hsl, hc]⟩
  exact le_trans hconf (le_listMaxD (List.mem_map_of_mem _ hsm))

/-- Claim C5: in two-letter (hard) mode, for every non-empty detection
list, if one of the two expected characters never appears among the
detected letters, the scorer returns `is_correct = false` with the
"both letters must be present" reason, regardless of any confidences. -/
theorem claim_C5_hard_missing_letter (is_capital : String) (e1 e2 : Char)
    (syms : List (Char × ℚ))
    (hne : extractLetters is_capital syms ≠ [])
    (h : countOf (extractLetters is_capital syms) e1 = 0 ∨
         countOf (extractLetters is_capital syms) e2 = 0) :
    (scoreDetections is_capital "hard" [e1, e2] syms).is_correct = false ∧
    (scoreDetections is_capital "hard" [e1, e2] syms).reason = Reason.bothMustBePresent := by
  have hlen : ¬ (extractLetters is_capital syms).length = 0 := by simpa using hne
  have hbp : ¬ (1 ≤ countOf (extractLetters is_capital syms) e1 ∧
      1 ≤ countOf (extractLetters is_capital syms) e2) := by
    rcases h with h | h <;> omega
  constructor <;>
  · simp only [scoreDetections, if_neg hlen]
    rw [if_neg (show ¬ ("hard" : String) = "easy" by decide)]
    dsimp only [List.getD]
    simp [hbp]

/-- Witness for claim C5: expected "ab" (small), only an 'a' detected. -/
theorem claim_C5_witness :
    extractLetters "small" [('a', mkRat 9 10)] ≠ [] ∧
    countOf (extractLetters "small" [('a', mkRat 9 10)]) 'b' = 0 ∧
    (scoreDetections "small" "hard" ['a', 'b'] [('a', mkRat 9 10)]).is_correct = false ∧
    (scoreDetections "small" "hard" ['a', 'b'] [('a', mkRat 9 10)]).reason = Reason.bothMustBePresent := by
  refine ⟨by decide, by decide, ?_, ?_⟩
  · exact (claim_C5_hard_missing_letter "small" 'a' 'b' [('a', mkRat 9 10)]
      (by decide) (Or.inr (by decide))).1
  · exact (claim_C5_hard_missing_letter "small" 'a' 'b' [('a', mkRat 9 10)]
      (by decide) (Or.inr (by decide))).2

/-- Claim C6: in two-letter (hard) mode, for every non-empty detection
list in which both expected characters appear at least once but the
two-character string is not a substring of the sequence of detected
characters at or above the 0.30 confidence floor, the scorer returns
`is_correct = false` with the order-violation reason. -/
theorem claim_C6_hard_order_violation (is_capital : String) (e1 e2 : Char)
    (syms : List (Char × ℚ))
    (hne : extractLetters is_capital syms ≠ [])
    (h1 : 1 ≤ countOf (extractLetters is_capital syms) e1)
    (h2 : 1 ≤ countOf (extractLetters is_capital syms) e2)
    (hseq : ¬ [e1, e2] <:+: extractSeq is_capital syms) :
    (scoreDetections is_capital "hard" [e1, e2] syms).is_correct = false ∧
    (scoreDetections is_capital "hard" [e1, e2] syms).reason = Reason.orderViolation e1 e2 := by
  have hlen : ¬ (extractLetters is_capital syms).length = 0 := by simpa using hne
  constructor <;>
  · simp only [scoreDetections, if_neg hlen]
    rw [if_neg (show ¬ ("hard" : String) = "easy" by decide)]
    dsimp only [List.getD]
    simp [h1, h2, hseq]

/-- Witness for claim C6: expected "ab" (small), detected 'b' then 'a'. -/
theorem claim_C6_witness :
    extractLetters "small" [('b', mkRat 9 10), ('a', mkRat 9 10)] ≠ [] ∧
    1 ≤ countOf (extractLetters "small" [('b', mkRat 9 10), ('a', mkRat 9 10)]) 'a' ∧
    1 ≤ countOf (extractLetters "small" [('b', mkRat 9 10), ('a', mkRat 9 10)]) 'b' ∧
    ¬ ['a', 'b'] <:+: extractSeq "small" [('b', mkRat 9 10), ('a', mkRat 9 10)] ∧
    (scoreDetections "small" "hard" ['a', 'b'] [('b', mkRat 9 10), ('a', mkRat 9 10)]).is_correct = false ∧
    (scoreDetections "small" "hard" ['a', 'b'] [('b', mkRat 9 10), ('a', mkRat 9 10)]).reason =
      Reason.orderViolation 'a' 'b' := by
  have hinf : ¬ ['a', 'b'] <:+: extractSeq "small" [('b', mkRat 9 10), ('a', mkRat 9 10)] := by
    decide
  refine ⟨by decide, by decide, by decide, hinf, ?_, ?_⟩
  · exact (claim_C6_hard_order_violation "small" 'a' 'b' [('b', mkRat 9 10), ('a', mkRat 9 10)]
      (by decide) (by decide) (by decide) hinf).1
  · exact (claim_C6_hard_order_violation "small" 'a' 'b' [('b', mkRat 9 10), ('a', mkRat 9 10)]
      (by decide) (by decide) (by decide) hinf).2

/-- Claim C7: for every expected answer and mode, with an empty detection
list the scorer returns the fixed early-exit result: incorrect, the
"nothing detected" reason, zero counts, zero confidence aggregates and an
empty mismatch list. -/
theorem claim_C7_empty_detections (is_capital level : String) (expectedNorm : List Char) :
    (scoreDetections is_capital level expectedNorm []).is_correct = false ∧
    (scoreDetections is_capital level expectedNorm []).reason = Reason.noLettersDetected ∧
    (scoreDetections is_capital level expectedNorm []).detected_count = 0 ∧
    (scoreDetections is_capital level expectedNorm []).match_count = 0 ∧
    (scoreDetections is_capital level expectedNorm []).top_match_confidence = 0 ∧
    (scoreDetections is_capital level expectedNorm []).match_ratio = 0 ∧
    (scoreDetections is_capital level expectedNorm []).mismatches = [] :=
  ⟨rfl, rfl, rfl, rfl, rfl, rfl, rfl⟩

/-- Claim C2: in single-letter (easy) mode, for every non-empty detection
list whose strictly highest-confidence detected character equals the
expected character with top confidence at least 0.70, the scorer returns
`is_correct = true`, no matter what else was detected or with what
(necessarily lower) confidences. -/
theorem claim_C2_easy_strong_primary (is_capital : String) (e : Char)
    (syms : List (Char × ℚ))
    (hne : extractLetters is_capital syms ≠ [])
    (htop : TOP_CONF_EASY ≤ topConfOf (extractLetters is_capital syms) e)
    (hmax : ∀ s ∈ extractLetters is_capital syms, s.letter ≠ e →
      s.confidence < topConfOf (extractLetters is_capital syms) e) :
    (scoreDetections is_capital "easy" [e] syms).is_correct = true := by
  have hTpos : (0 : ℚ) < TOP_CONF_EASY := by decide
  have hepos : 0 < topConfOf (extractLetters is_capital syms) e := lt_of_lt_of_le hTpos htop
  obtain ⟨s0, hs0, hs0l, _⟩ := topConfOf_exists hepos (le_refl _)
  have hekeys : e ∈ pyKeys ((extractLetters is_capital syms).map (fun s => s.letter)) :=
    (mem_pyKeys _ _).mpr (List.mem_map.mpr ⟨s0, hs0, hs0l⟩)
  have hstrict : ∀ k ∈ pyKeys ((extractLetters is_capital syms).map (fun s => s.letter)),
      k ≠ e → topConfOf (extractLetters is_capital syms) k <
        topConfOf (extractLetters is_capital syms) e := by
    intro k _ hkne
    apply topConfOf_lt hepos
    intro s hs hsl
    exact hmax s hs (by rw [hsl]; exact hkne)
  have hprimary : pyMaxKey (topConfOf (extractLetters is_capital syms))
      (pyKeys ((extractLetters is_capital syms).map (fun s => s.letter))) = e :=
    pyMaxKey_eq_of_strict hekeys hstrict
  have hlen : ¬ (extractLetters is_capital syms).length = 0 := by simpa using hne
  simp only [scoreDetections, if_neg hlen, eq_self_iff_true, if_true]
  dsimp only [List.headI]
  rw [hprimary]
  simp [htop]

/-- Witness for claim C2: expected 'a' (small), detections 'a' at 9/10 and
'c' at 1/2. -/
theorem claim_C2_witness :
    extractLetters "small" [('a', mkRat 9 10), ('c', mkRat 1 2)] ≠ [] ∧
    TOP_CONF_EASY ≤ topConfOf (extractLetters "small" [('a', mkRat 9 10), ('c', mkRat 1 2)]) 'a' ∧
    (∀ s ∈ extractLetters "small" [('a', mkRat 9 10), ('c', mkRat 1 2)], s.letter ≠ 'a' →
      s.confidence < topConfOf (extractLetters "small" [('a', mkRat 9 10), ('c', mkRat 1 2)]) 'a') ∧
    (scoreDetections "small" "easy" ['a'] [('a', mkRat 9 10), ('c', mkRat 1 2)]).is_correct = true := by
  refine ⟨by decide, by decide, by decide, ?_⟩
  exact claim_C2_easy_strong_primary "small" 'a' [('a', mkRat 9 10), ('c', mkRat 1 2)]
    (by decide) (by decide) (by decide)

/-- Counterexample to claim C3 as stated: expected 'o' (small-easy), two
detections of 'c' at confidence 1/2.  The detections that EQUAL 'o' are 0
of 2 (ratio 0 < 0.60) and the highest 'o'-confidence is 0 < 0.70, so the
claim as stated demands `is_correct = false`; but 'c' lies in the EQUIV
equivalence class of 'o', the class ratio is 2/2 ≥ 0.60, and the scorer
returns `is_correct = true`. -/
theorem claim_C3_counterexample :
    extractLetters "small" [('c', mkRat 1 2), ('c', mkRat 1 2)] ≠ [] ∧
    mkRat (countOf (extractLetters "small" [('c', mkRat 1 2), ('c', mkRat 1 2)]) 'o' : ℤ)
      (extractLetters "small" [('c', mkRat 1 2), ('c', mkRat 1 2)]).length < MIN_RATIO ∧
    topConfOf (extractLetters "small" [('c', mkRat 1 2), ('c', mkRat 1 2)]) 'o' < TOP_CONF_EASY ∧
    (scoreDetections "small" "easy" ['o'] [('c', mkRat 1 2), ('c', mkRat 1 2)]).is_correct = true := by
  refine ⟨by decide, by decide, by decide, by decide⟩

/-- Claim C3 (amended): in single-letter (easy) mode, for every non-empty
detection list, if the detections whose character belongs to the expected
character's EQUIV equivalence class (the expected character alone when it
has no entry) make up less than 0.60 of all detections and the highest
confidence among those class-matching detections is below 0.70, then the
scorer returns `is_correct = false`. -/
theorem claim_C3_amended_low_ratio_low_conf (is_capital : String) (e : Char)
    (syms : List (Char × ℚ))
    (hne : extractLetters is_capital syms ≠ [])
    (hratio : mkRat (((extractLetters is_capital syms).filter
        (fun s => s.letter ∈ allowedFor e)).length : ℤ)
        (extractLetters is_capital syms).length < MIN_RATIO)
    (htop : listMaxD (((extractLetters is_capital syms).filter
        (fun s => s.letter ∈ allowedFor e)).map (fun s => s.confidence)) < TOP_CONF_EASY) :
    (scoreDetections is_capital "easy" [e] syms).is_correct = false := by
  have hlen : ¬ (extractLetters is_capital syms).length = 0 := by simpa using hne
  have hTpos : (0 : ℚ) < TOP_CONF_EASY := by decide
  have hSpos : (0 : ℚ) < TOP_CONF_STRICT := by decide
  have hTS : TOP_CONF_EASY ≤ TOP_CONF_STRICT := by decide
  have hpo : ∀ p : Char,
      ¬ ((p = e ∧ TOP_CONF_EASY ≤ topConfOf (extractLetters is_capital syms) p) ∨
        (p ∈ allowedFor e ∧ p ≠ e ∧
          TOP_CONF_STRICT ≤ topConfOf (extractLetters is_capital syms) p)) := by
    rintro p (⟨rfl, hge⟩ | ⟨hmem, _, hge⟩)
    · exact absurd htop (not_lt.mpr (topConf_le_matchMax (allowedFor_self p) hTpos hge))
    · have h8 := topConf_le_matchMax hmem hSpos hge
      exact absurd htop (not_lt.mpr (le_trans hTS h8))
  have hd2 : ¬ ( MIN_RATIO ≤ mkRat (((extractLetters is_capital syms).filter
      (fun s => s.letter ∈ allowedFor e)).length : ℤ)
      (extractLetters is_capital syms).length) := not_le.mpr hratio
  simp only [scoreDetections, if_neg hlen, eq_self_iff_true, if_true]
  dsimp only [List.headI]
  rw [if_pos hlen]
  simp [hpo _, hd2]

/-- Witness for the amended claim C3: expected 'a' (small), one detection
'b' at 9/10: class ratio 0 < 0.60, top class confidence 0 < 0.70, and the
scorer indeed rejects. -/
theorem claim_C3_amended_witness :
    extractLetters "small" [('b', mkRat 9 10)] ≠ [] ∧
    mkRat (((extractLetters "small" [('b', mkRat 9 10)]).filter
        (fun s => s.letter ∈ allowedFor 'a')).length : ℤ)
      (extractLetters "small" [('b', mkRat 9 10)]).length < MIN_RATIO ∧
    listMaxD (((extractLetters "small" [('b', mkRat 9 10)]).filter
        (fun s => s.letter ∈ allowedFor 'a')).map (fun s => s.confidence)) < TOP_CONF_EASY ∧
    (scoreDetections "small" "easy" ['a'] [('b', mkRat 9 10)]).is_correct = false := by
  refine ⟨by decide, by decide, by decide, ?_⟩
  exact claim_C3_amended_low_ratio_low_conf "small" 'a' [('b', mkRat 9 10)]
    (by decide) (by decide) (by decide)

set_option maxHeartbeats 1600000 in
/-- Claim C9: for every canvas input whose cleaned-up remainder (data-URL
header and whitespace stripped) is empty or not valid base64, the recognize
operation fails with HTTP 400 whatever the OCR oracle would answer — so
before any network call — and never with the upstream-failure signal 502. -/
theorem claim_C9_invalid_base64_is_400 (b64 el ic lv : String) (ocr : OcrOutcome)
    (h : cleanupBase64 b64 = "" ∨ b64decodeValidates (cleanupBase64 b64) = false) :
    errStatus (detect_handwritten_letters_from_base64 b64 el ic lv ocr) = some 400 ∧
    errStatus (detect_handwritten_letters_from_base64 b64 el ic lv ocr) ≠ some 502 := by
  have h400 : errStatus (detect_handwritten_letters_from_base64 b64 el ic lv ocr) = some 400 := by
    unfold detect_handwritten_letters_from_base64
    by_cases h1 : el.trim = ""
    · rw [if_pos h1]; rfl
    rw [if_neg h1]
    by_cases h2 : ¬ (ic = "capital" ∨ ic = "small")
    · rw [if_pos h2]; rfl
    rw [if_neg h2]
    by_cases h3 : ¬ (lv = "easy" ∨ lv = "hard")
    · rw [if_pos h3]; rfl
    rw [if_neg h3]
    by_cases h4 : el.trim.toList.all Char.isAlpha = false
    · rw [if_pos h4]; rfl
    rw [if_neg h4]
    by_cases h5 : lv = "easy" ∧ el.trim.length ≠ 1
    · rw [if_pos h5]; rfl
    rw [if_neg h5]
    by_cases h6 : lv = "hard" ∧ el.trim.length ≠ 2
    · rw [if_pos h6]; rfl
    rw [if_neg h6]
    by_cases hb1 : cleanupBase64 b64 = ""
    · rw [if_pos hb1]; rfl
    rw [if_neg hb1]
    have hb2 : b64decodeValidates (cleanupBase64 b64) = false := by
      rcases h with hb | hb
      · exact absurd hb hb1
      · exact hb
    rw [if_pos hb2]
    rfl
  refine ⟨h400, ?_⟩
  rw [h400]
  decide

/-- Witness for claim C9: a data-URL whose payload is not base64 fails
with 400 even when the OCR oracle would have succeeded. -/
theorem claim_C9_witness :
    (cleanupBase64 "data:image/png;base64, @@" = "" ∨
      b64decodeValidates (cleanupBase64 "data:image/png;base64, @@") = false) ∧
    errStatus (detect_handwritten_letters_from_base64 "data:image/png;base64, @@"
      "a" "small" "easy" (OcrOutcome.ok [])) = some 400 := by
  refine ⟨Or.inr (by decide), ?_⟩
  exact (claim_C9_invalid_base64_is_400 "data:image/png;base64, @@" "a" "small" "easy"
    (OcrOutcome.ok []) (Or.inr (by decide))).1

/-- Claim C10: the `/parent_chat` handler always passes three positional
arguments to `get_parent_answer`, whose signature accepts at most two, so
every request raises a `TypeError` and the handler answers HTTP 500
"Chatbot error"; the success envelope is never produced. -/
theorem claim_C10_parent_chat_arity {α : Type} (question : String) (kb_hit : Option String)
    (api_key : String) (body : α) :
    parent_chat question kb_hit api_key body =
      ChatResponse.httpError 500 ("Chatbot error: " ++
        "get_parent_answer() takes from 1 to 2 positional arguments but 3 were given") ∧
    ∀ env : α, parent_chat question kb_hit api_key body ≠ ChatResponse.success env := by
  have h0 : parent_chat question kb_hit api_key body =
      ChatResponse.httpError 500 ("Chatbot error: " ++
        "get_parent_answer() takes from 1 to 2 positional arguments but 3 were given") := rfl
  refine ⟨h0, ?_⟩
  intro env h
  rw [h0] at h
  exact ChatResponse.noConfusion h
